import Mathlib

/-!
Verification development for the TripsViz-ORF-Detector pipeline
(`Translonpredictor/fileprocessor.py`).

The Python data frames are embedded as lists of typed records, polars
operations as list operations, Python `float` arithmetic as exact rational
arithmetic, and fallible operations (dictionary lookups, `pl.from_dicts` on
an empty list) as `Option`-valued functions.
-/

namespace FileProcessor

/-- One row of the per-length histogram table handed to
`change_point_analysis` (grouped by `bamcds_start` and `length`,
with `count` aggregated). -/
structure HistRow where
  bamcds_start : Int
  length : Int
  count : Int
  deriving Repr, DecidableEq

/-- `offset_df_len = offset_df.filter(length == L).sort("bamcds_start")`:
stable sort of the rows of one length by `bamcds_start`. -/
def sortedByStart (rows : List HistRow) : List HistRow :=
  List.insertionSort (fun a b => a.bamcds_start ≤ b.bamcds_start) rows

/-- `left_df = rows.filter(bamcds_start == j)` followed by
`left_df["count"][0] if nonempty else 0`. -/
def histCount (rows : List HistRow) (j : Int) : Int :=
  match rows.find? (fun r => r.bamcds_start == j) with
  | some r => r.count
  | none => 0

/-- The `left` list built for candidate `i`: counts at
`j in range(i-3, i+1)`. -/
def leftWindow (rows : List HistRow) (i : Int) : List Int :=
  (List.range 4).map (fun k => histCount rows (i - 3 + k))

/-- The `right` list built for candidate `i`: counts at
`j in range(i+1, i+5)`. -/
def rightWindow (rows : List HistRow) (i : Int) : List Int :=
  (List.range 4).map (fun k => histCount rows (i + 1 + k))

/-- Absolute value on ℤ, written out so that it evaluates by kernel
reduction. -/
def intAbs (x : Int) : Int :=
  if x < 0 then -x else x

/-- The single `shift` value the code computes for a length, scaled by 4.
In the source the `mean_left`/`mean_right`/`shift` block sits at the
indentation level of the `for i in range(-30, 11)` loop, not inside it, so
it runs once per length using the `left`/`right` lists left over from the
final iteration, where `i = 10`.  The code computes
`shift = abs(sum(right)/4 - sum(left)/4)` with float division; both
divisors are the fixed constant 4 (and division of an integer by 4 is
exact in binary floating point), so `shift` equals this value divided
by 4, and every comparison the code performs on shifts (against the
running maximum, initially the exact value 0) is invariant under the
uniform scaling; the model therefore tracks `4 * shift` in ℤ. -/
def lengthShift4 (df : List HistRow) (L : Int) : Int :=
  let rows := sortedByStart (df.filter (fun r => r.length == L))
  intAbs ((rightWindow rows 10).sum - (leftWindow rows 10).sum)

/-- The per-length loop of `change_point_analysis`.  `max_shift` and
`max_shift_position` are initialised once, before the loop over lengths,
and are never reset, exactly as in the source; when the dedented block
assigns `max_shift_position = i`, `i` holds its final loop value `10`. -/
def change_point_go (df : List HistRow) :
    List Int → Int → Option Int → List (Int × Int)
  | [], _, _ => []
  | L :: rest, max_shift, max_pos =>
    let shift := lengthShift4 df L
    let max_shift' := if max_shift < shift then shift else max_shift
    let max_pos' : Option Int := if max_shift < shift then some 10 else max_pos
    let off : Int := match max_pos' with
      | none => 15
      | some p => p
    (L, off) :: change_point_go df rest max_shift' max_pos'

/-- `change_point_analysis(offset_df)`: iterates over the distinct lengths
(first-occurrence order models the unspecified order of
`offset_df["length"].unique()`) and returns the offset dictionary as an
association list. -/
def change_point_analysis (df : List HistRow) : List (Int × Int) :=
  change_point_go df ((df.map (·.length)).dedup) 0 none

/-- Spec-side histogram (§4.3 step 1): `H : cds_relative_start → total_count`,
summing `count` over all rows of the given length at the position, missing
positions counted as zero. -/
def specHist (df : List HistRow) (L : Int) (j : Int) : Int :=
  ((df.filter (fun r => r.length == L && r.bamcds_start == j)).map
    (fun r => r.count)).sum

/-- Spec-side shift (§4.3 step 2) of the specified algorithm, for
comparison with the code: `|mean(H[i+1..i+4]) - mean(H[i-3..i])|`,
tracked as 4 times the mean difference in ℤ (both means have the fixed
denominator 4, so all comparisons between shifts are preserved). -/
def specShiftAt4 (df : List HistRow) (L : Int) (i : Int) : Int :=
  let left := ((List.range 4).map (fun k => specHist df L (i - 3 + k))).sum
  let right := ((List.range 4).map (fun k => specHist df L (i + 1 + k))).sum
  intAbs (right - left)

/-- The candidate scan range `[-30, 10]`, in increasing order. -/
def scanRange : List Int :=
  (List.range 41).map (fun k => (k : Int) - 30)

/-- Spec-side offset (§4.3 steps 2-4) of the specified algorithm, for
comparison with the code: scan `i` over `[-30, 10]` in increasing order,
keep the first maximiser of the shift (strict improvement only), and fall
back to 15 when no candidate yields a positive maximal shift. -/
def specOffset (df : List HistRow) (L : Int) : Int :=
  let best := scanRange.foldl
    (fun (acc : Int × Option Int) i =>
      let s := specShiftAt4 df L i
      if acc.1 < s then (s, some i) else acc)
    (0, none)
  match best.2 with
  | none => 15
  | some p => p

/-- Scenario B input: length 30, counts concentrated at positions ≥ 0
(count 4 at each position 0..14) and zero below 0. -/
def scenB : List HistRow :=
  (List.range 15).map (fun j => ⟨(j : Int), 30, 4⟩)

/-- A length-30 histogram whose only mass sits at position 100, far outside
every scan window, so every candidate's shift is zero. -/
def rowFar30 : HistRow := ⟨100, 30, 5⟩

/-- Input containing only the flat (out-of-window) length-30 rows. -/
def dfFlatOnly : List HistRow := [rowFar30]

/-- Input with the same length-30 rows, preceded by length-28 rows whose
histogram steps upward inside the window at candidate 10. -/
def dfStepThenFlat : List HistRow := [⟨12, 28, 100⟩, rowFar30]

/-- One row of the read table handed to `bamtranscript` (columns of
`df_namesplit`: `count`, `chr`, `start`, `stop`, `length`). -/
structure BamRow where
  count : Int
  chr : String
  start : Int
  stop : Int
  length : Int
  deriving Repr, DecidableEq

/-- One exploded exon row: genomic `start`/`stop` with the matching
transcript-relative `tran_start`/`tran_stop` and the `tran_id`. -/
structure ExonRow where
  chr : String
  start : Int
  stop : Int
  tran_id : String
  tran_start : Int
  tran_stop : Int
  deriving Repr, DecidableEq

/-- One row of the output of `get_bam_tran` after the exclusion of
`stop_right`, `start_right`, `tran_start` and `tran_stop`. -/
structure TranRow where
  count : Int
  chr : String
  start : Int
  stop : Int
  length : Int
  tran_id : String
  tran_start_bam : Int
  tran_stop_bam : Int
  deriving Repr, DecidableEq

/-- The row built for a surviving (read, exon) pair:
`tran_start_bam = tran_start + (start - start_right)` and
`tran_stop_bam = tran_stop - (stop_right - stop)`. -/
def mkTranRow (b : BamRow) (e : ExonRow) : TranRow :=
  { count := b.count, chr := b.chr, start := b.start, stop := b.stop,
    length := b.length, tran_id := e.tran_id,
    tran_start_bam := e.tran_start + (b.start - e.start),
    tran_stop_bam := e.tran_stop - (e.stop - b.stop) }

/-- `get_bam_tran`: inner join of the two tables on `chr`, filtered to the
pairs with `start >= start_right` and `stop <= stop_right`, then projected
to transcript coordinates. -/
def get_bam_tran (bam_df : List BamRow) (exon_df : List ExonRow) : List TranRow :=
  ((bam_df.flatMap (fun b =>
      (exon_df.filter (fun e => e.chr == b.chr)).map (fun e => (b, e)))).filter
    (fun p => decide (p.2.start ≤ p.1.start ∧ p.1.stop ≤ p.2.stop))).map
    (fun p => mkTranRow p.1 p.2)

/-- The window size hardcoded in the loop of `bamtranscript`
(`range(min_val, max_val, 225000)` and `rng = i + 225000`). -/
def windowSize : Int := 225000

/-- `bam_df.filter(chr.is_in(uniquechr_exon))`. -/
def sharedChrBam (bam : List BamRow) (exon : List ExonRow) : List BamRow :=
  bam.filter (fun b => ((exon.map (fun e => e.chr)).dedup).contains b.chr)

/-- `exon_flattened.filter(chr.is_in(uniquechr_bam))`. -/
def sharedChrExon (exon : List ExonRow) (bam : List BamRow) : List ExonRow :=
  exon.filter (fun e => ((bam.map (fun b => b.chr)).dedup).contains e.chr)

/-- `bam_df.filter(chr == c)`. -/
def chrBam (bam : List BamRow) (c : String) : List BamRow :=
  bam.filter (fun b => b.chr == c)

/-- `exon_flattened.filter(chr == c)`. -/
def chrExon (exon : List ExonRow) (c : String) : List ExonRow :=
  exon.filter (fun e => e.chr == c)

/-- `min(exon_with_chr["start"])` (the empty case is unreachable in
`bamtranscript`, since every chromosome scanned is shared). -/
def minStart (exons : List ExonRow) : Int :=
  match exons.map (fun e => e.start) with
  | [] => 0
  | x :: xs => xs.foldl min x

/-- `max(exon_with_chr["stop"])` (empty case unreachable, as above). -/
def maxStop (exons : List ExonRow) : Int :=
  match exons.map (fun e => e.stop) with
  | [] => 0
  | x :: xs => xs.foldl max x

/-- `range(min_val, max_val, 225000)`: the window start positions; there
are `ceil((max_val - min_val) / 225000)` of them when `max_val > min_val`,
none otherwise. -/
def windowStarts (mn mx : Int) : List Int :=
  (List.range (((mx - mn).toNat + 224999) / 225000)).map
    (fun k => mn + windowSize * (k : Int))

/-- The read rows assigned to the window starting at `w`:
`bam_with_chr.filter((start >= i) & (stop <= rng))` with `rng = i + 225000`. -/
def bamWindowFilter (w : Int) (rows : List BamRow) : List BamRow :=
  rows.filter (fun b => decide (w ≤ b.start ∧ b.stop ≤ w + windowSize))

/-- The exon rows assigned to the window starting at `w`:
`exon_with_chr.filter((start >= i) & (stop <= rng))`. -/
def exonWindowFilter (w : Int) (rows : List ExonRow) : List ExonRow :=
  rows.filter (fun e => decide (w ≤ e.start ∧ e.stop ≤ w + windowSize))

/-- The reads of chromosome `c` that survive the shared-chromosome
restriction: `bam_with_chr` in the loop of `bamtranscript`. -/
def cellBam (bam : List BamRow) (exon : List ExonRow) (c : String) : List BamRow :=
  chrBam (sharedChrBam bam exon) c

/-- The exons of chromosome `c` that survive the shared-chromosome
restriction: `exon_with_chr` in the loop of `bamtranscript`. -/
def cellExon (bam : List BamRow) (exon : List ExonRow) (c : String) : List ExonRow :=
  chrExon (sharedChrExon exon bam) c

/-- The window start positions scanned for chromosome `c`. -/
def cellWindows (bam : List BamRow) (exon : List ExonRow) (c : String) : List Int :=
  windowStarts (minStart (cellExon bam exon c)) (maxStop (cellExon bam exon c))

/-- The `results` list accumulated by the chromosome/window loop of
`bamtranscript`: one joined block per (chromosome, window) cell whose read
and exon selections are both nonempty. -/
def windowResults (bam : List BamRow) (exon : List ExonRow) : List (List TranRow) :=
  (((sharedChrBam bam exon).map (fun b => b.chr)).dedup).flatMap (fun c =>
    (cellWindows bam exon c).flatMap (fun w =>
      if (exonWindowFilter w (cellExon bam exon c)).isEmpty
          || (bamWindowFilter w (cellBam bam exon c)).isEmpty then []
      else [get_bam_tran (bamWindowFilter w (cellBam bam exon c))
              (exonWindowFilter w (cellExon bam exon c))]))

/-- `bamtranscript`: concatenation of the per-window join results
(`pl.from_dicts(results)` followed by the explode).  `pl.from_dicts`
raises on an empty list, so an empty `results` is modelled as `none`. -/
def bamtranscript (bam : List BamRow) (exon : List ExonRow) : Option (List TranRow) :=
  if (windowResults bam exon).isEmpty then none
  else some (windowResults bam exon).flatten

/-- One CDS annotation row, restricted to the two columns
`bamrelativetocds` reads (`tran_id` and `tran_start`). -/
structure CdsRow where
  tran_id : String
  tran_start : Int
  deriving Repr, DecidableEq

/-- One row of the output of `bamrelativetocds` after the exclusion of
`tran_start_bam` and `tran_stop_bam`. -/
structure CdsOutRow where
  count : Int
  chr : String
  start : Int
  stop : Int
  length : Int
  tran_id : String
  bamcds_start : Int
  deriving Repr, DecidableEq

/-- `calculate_differences(start, start_dict)`. -/
def calculate_differences (start start_dict : Int) : Int :=
  start - start_dict

/-- `bamdf.filter(tran_id.is_in(uniquetran_cds))`. -/
def restrictBam (bamdf : List TranRow) (cdsdf : List CdsRow) : List TranRow :=
  bamdf.filter (fun b => ((cdsdf.map (fun c => c.tran_id)).dedup).contains b.tran_id)

/-- `cdsdf.filter(tran_id.is_in(uniquetran_bam))`. -/
def restrictCds (cdsdf : List CdsRow) (bamdf : List TranRow) : List CdsRow :=
  cdsdf.filter (fun c => ((bamdf.map (fun b => b.tran_id)).dedup).contains c.tran_id)

/-- `start_dict = dict(zip(tran_dict["tran_id"], tran_dict["tran_start"]))`:
a Python dict built from pairs in row order maps each id to the last
`tran_start` paired with it, and lookup fails for absent ids. -/
def startDict (cds : List CdsRow) (t : String) : Option Int :=
  (cds.reverse.find? (fun c => c.tran_id == t)).map (fun c => c.tran_start)

/-- The output row kept for a read: the input columns minus
`tran_start_bam`/`tran_stop_bam`, plus the computed `bamcds_start`. -/
def mkCdsOut (r : TranRow) (v : Int) : CdsOutRow :=
  { count := r.count, chr := r.chr, start := r.start, stop := r.stop,
    length := r.length, tran_id := r.tran_id, bamcds_start := v }

/-- Option-valued map over a list: `none` as soon as one element fails,
modelling a Python exception inside a row-wise `apply`. -/
def mapOpt (f : α → Option β) : List α → Option (List β)
  | [] => some []
  | a :: l =>
    match f a, mapOpt f l with
    | some b, some bs => some (b :: bs)
    | _, _ => none

/-- `bamrelativetocds`: restrict both tables to the shared transcript ids,
build `start_dict` from the restricted CDS table, and compute
`bamcds_start = calculate_differences(tran_start_bam, start_dict[tran_id])`
for every remaining read row (`none` models the `KeyError` of a failed
dictionary lookup). -/
def bamrelativetocds (bamdf : List TranRow) (cdsdf : List CdsRow) :
    Option (List CdsOutRow) :=
  let bam_df := restrictBam bamdf cdsdf
  let cds_df := restrictCds cdsdf bamdf
  mapOpt (fun r =>
    (startDict cds_df r.tran_id).map
      (fun v => mkCdsOut r (calculate_differences r.tran_start_bam v))) bam_df

/-- One exploded row of `df_asite` before grouping: the columns kept by
`asitecalc` after the exclusion of `start`, `stop`, `length`, `tran_id`
and `bamcds_start`. -/
structure ARow where
  count : Int
  chr : String
  asite : Int
  deriving Repr, DecidableEq

/-- One output row of `asitecalc`: `["chr", "A-site", "stop", "count"]`. -/
structure BedRow where
  chr : String
  asite : Int
  stop : Int
  count : Int
  deriving Repr, DecidableEq

/-- The distinct read lengths, in first-occurrence order (models the keys
of `df.group_by("length")`, whose order polars leaves unspecified). -/
def uniqueLengths (df : List CdsOutRow) : List Int :=
  (df.map (fun r => r.length)).dedup

/-- The block built for one length group: `df.filter(length == L)` with
the new column `A-site = start + offsets[L]` and the redundant columns
dropped. -/
def shiftGroup (df : List CdsOutRow) (L : Int) (o : Int) : List ARow :=
  (df.filter (fun r => r.length == L)).map
    (fun r => { count := r.count, chr := r.chr, asite := r.start + o })

/-- The loop of `asitecalc` over length groups; a length missing from the
offsets dictionary is a `KeyError`, modelled as `none`. -/
def asiteGroups (df : List CdsOutRow) (offsets : Int → Option Int) :
    List Int → Option (List ARow)
  | [] => some []
  | L :: rest =>
    match offsets L, asiteGroups df offsets rest with
    | some o, some rows => some (shiftGroup df L o ++ rows)
    | _, _ => none

/-- The grouping key of the `group_by("chr", "A-site")` step. -/
def aKey (r : ARow) : String × Int :=
  (r.chr, r.asite)

/-- Total count of a block of exploded rows. -/
def sumCounts (rows : List ARow) : Int :=
  (rows.map (fun r => r.count)).sum

/-- The distinct `(chr, A-site)` pairs, in first-occurrence order. -/
def groupKeys (rows : List ARow) : List (String × Int) :=
  (rows.map aKey).dedup

/-- The sort key of `df_asite.sort(["chr", "A-site"])`: chromosome
lexicographically first, then position numerically. -/
def bedLe (a b : BedRow) : Prop :=
  a.chr < b.chr ∨ (a.chr = b.chr ∧ a.asite ≤ b.asite)

instance : DecidableRel bedLe := fun a b =>
  inferInstanceAs (Decidable (a.chr < b.chr ∨ (a.chr = b.chr ∧ a.asite ≤ b.asite)))

instance : IsTotal BedRow bedLe :=
  ⟨by
    intro a b
    rcases lt_trichotomy a.chr b.chr with h | h | h
    · exact Or.inl (Or.inl h)
    · rcases le_total a.asite b.asite with h2 | h2
      · exact Or.inl (Or.inr ⟨h, h2⟩)
      · exact Or.inr (Or.inr ⟨h.symm, h2⟩)
    · exact Or.inr (Or.inl h)⟩

instance : IsTrans BedRow bedLe :=
  ⟨by
    intro a b c hab hbc
    rcases hab with h1 | h1
    · rcases hbc with h2 | h2
      · exact Or.inl (h1.trans h2)
      · exact Or.inl (lt_of_lt_of_le h1 (le_of_eq h2.1))
    · rcases hbc with h2 | h2
      · exact Or.inl (lt_of_le_of_lt (le_of_eq h1.1) h2)
      · exact Or.inr ⟨h1.1.trans h2.1, h1.2.trans h2.2⟩⟩

/-- The key of an output row, for stating uniqueness and ordering. -/
def bedKey (r : BedRow) : String × Int :=
  (r.chr, r.asite)

/-- The aggregated output row built for one `(chr, A-site)` group:
summed `count` and `stop = A-site + 1`. -/
def bedOfKey (rows : List ARow) (k : String × Int) : BedRow :=
  { chr := k.1, asite := k.2, stop := k.2 + 1,
    count := sumCounts (rows.filter (fun r => decide (aKey r = k))) }

/-- `asitecalc`: shift each length group by its offset, concatenate
(`pl.from_dicts` + explode; `from_dicts` raises on the empty list, which
happens exactly when the input has no rows), group by `(chr, A-site)`
summing `count`, add `stop = A-site + 1`, and sort by `(chr, A-site)`. -/
def asitecalc (df : List CdsOutRow) (offsets : Int → Option Int) :
    Option (List BedRow) :=
  if uniqueLengths df = [] then none
  else
    match asiteGroups df offsets (uniqueLengths df) with
    | none => none
    | some rows => some (List.insertionSort bedLe ((groupKeys rows).map (bedOfKey rows)))

/-- The shift applied to one row once every length has an offset: the
`A-site` is `start + offsets[length]`. -/
def shiftRow (offsets : Int → Option Int) (r : CdsOutRow) : ARow :=
  { count := r.count, chr := r.chr, asite := r.start + (offsets r.length).getD 0 }

/-- The concatenated exploded rows produced by the length-group loop of
`asitecalc` when no lookup fails. -/
def groupedRows (df : List CdsOutRow) (offsets : Int → Option Int) : List ARow :=
  (uniqueLengths df).flatMap (fun L =>
    (df.filter (fun r => r.length == L)).map (shiftRow offsets))

/-- All input rows shifted, in input order. -/
def allShift (df : List CdsOutRow) (offsets : Int → Option Int) : List ARow :=
  df.map (shiftRow offsets)

/-- Scenario A read: `(chr1, 100, 130, len 30, count 1)`. -/
def scenRead : BamRow :=
  { count := 1, chr := "chr1", start := 100, stop := 130, length := 30 }

/-- Scenario A exon: `(chr1, 90, 200, tranA, tran_start 0, tran_stop 110)`. -/
def scenExon : ExonRow :=
  { chr := "chr1", start := 90, stop := 200, tran_id := "tranA",
    tran_start := 0, tran_stop := 110 }

/-- Scenario A CDS record: `(tranA, transcript_start 5)`. -/
def scenCds : CdsRow :=
  { tran_id := "tranA", tran_start := 5 }

/-- The projected row of Scenario A. -/
def projA : TranRow := mkTranRow scenRead scenExon

/-- A read whose start lies inside the window starting at 0 but whose stop
lies beyond that window's end. -/
def boundaryRead : BamRow :=
  { count := 1, chr := "chr1", start := 100, stop := 225500, length := 225400 }

/-- Exons placing `min_val = 0` and `max_val = 250010`, so the windows
scanned for chr1 start at 0 and 225000. -/
def c10Exons : List ExonRow :=
  [{ chr := "chr1", start := 0, stop := 10, tran_id := "t1",
     tran_start := 0, tran_stop := 10 },
   { chr := "chr1", start := 250000, stop := 250010, tran_id := "t2",
     tran_start := 0, tran_stop := 10 }]

/-- A read table whose single read spans a window boundary, so no
(chromosome, window) cell contains both a read and an exon. -/
def c10Bam : List BamRow := [boundaryRead]

/-- Scenario D input: two CDS-relative reads of length 30 landing on the
same `(chromosome, A-site)` once shifted, with counts 3 and 4. -/
def dfD : List CdsOutRow :=
  [{ count := 3, chr := "chr1", start := 40, stop := 70, length := 30,
     tran_id := "tA", bamcds_start := 7 },
   { count := 4, chr := "chr1", start := 40, stop := 70, length := 30,
     tran_id := "tB", bamcds_start := 7 }]

/-- An offset map defined exactly on length 30. -/
def offD : Int → Option Int := fun L => if L = 30 then some 15 else none

lemma mapOpt_eq_some_map {α β : Type} (f : α → Option β) (g : α → β) :
    ∀ l : List α, (∀ a ∈ l, f a = some (g a)) → mapOpt f l = some (l.map g)
  | [], _ => rfl
  | a :: t, h => by
    have ha := h a (List.mem_cons_self a t)
    have ht := mapOpt_eq_some_map f g t (fun x hx => h x (List.mem_cons_of_mem a hx))
    simp [mapOpt, ha, ht]

lemma flatMap_filter_perm {α κ : Type} (key : α → κ) (eqb : α → κ → Bool)
    (heqb : ∀ a k, eqb a k = true ↔ key a = k) :
    ∀ (keys : List κ) (l : List α), keys.Nodup → (∀ a ∈ l, key a ∈ keys) →
      (keys.flatMap (fun k => l.filter (fun a => eqb a k))).Perm l := by
  intro keys
  induction keys with
  | nil =>
    intro l _ hcov
    have hl : l = [] :=
      List.eq_nil_iff_forall_not_mem.mpr (fun a ha => by simpa using hcov a ha)
    simp [hl]
  | cons k ks ih =>
    intro l hnd hcov
    have hk_not : k ∉ ks := (List.nodup_cons.mp hnd).1
    have hnd' : ks.Nodup := (List.nodup_cons.mp hnd).2
    have hstep : ∀ k' ∈ ks, l.filter (fun a => eqb a k') =
        (l.filter (fun a => !(eqb a k))).filter (fun a => eqb a k') := by
      intro k' hk'
      rw [List.filter_filter]
      refine List.filter_congr ?_
      intro a _
      cases hq : eqb a k' with
      | false => simp
      | true =>
        have hkey : key a = k' := (heqb a k').mp hq
        have hne : key a ≠ k := fun hEq => hk_not (hEq.symm.trans hkey ▸ hk')
        have hfk : eqb a k = false := Bool.eq_false_iff.mpr (mt (heqb a k).mp hne)
        simp [hfk]
    have hcongr : ks.flatMap (fun k' => l.filter (fun a => eqb a k')) =
        ks.flatMap (fun k' => (l.filter (fun a => !(eqb a k))).filter
          (fun a => eqb a k')) :=
      List.flatMap_congr hstep
    have hcov' : ∀ a ∈ l.filter (fun a => !(eqb a k)), key a ∈ ks := by
      intro a ha
      obtain ⟨hal, hq⟩ := List.mem_filter.mp ha
      have h2 : eqb a k = false := by simpa using hq
      have h3 : key a ≠ k := fun hEq => by simp [(heqb a k).mpr hEq] at h2
      rcases List.mem_cons.mp (hcov a hal) with h | h
      · exact absurd h h3
      · exact h
    have hperm' := ih (l.filter (fun a => !(eqb a k))) hnd' hcov'
    rw [List.flatMap_cons, hcongr]
    exact (hperm'.append_left _).trans (List.filter_append_perm _ l)

lemma dedup_flatMap_filter_perm {α κ : Type} [DecidableEq κ] (key : α → κ)
    (eqb : α → κ → Bool) (heqb : ∀ a k, eqb a k = true ↔ key a = k)
    (l : List α) :
    ((l.map key).dedup.flatMap (fun k => l.filter (fun a => eqb a k))).Perm l :=
  flatMap_filter_perm key eqb heqb _ l (List.nodup_dedup _)
    (fun a ha => List.mem_dedup.mpr (List.mem_map.mpr ⟨a, ha, rfl⟩))

lemma sumCounts_append (l₁ l₂ : List ARow) :
    sumCounts (l₁ ++ l₂) = sumCounts l₁ + sumCounts l₂ := by
  simp [sumCounts]

lemma sum_counts_flatMap {κ : Type} (f : κ → List ARow) :
    ∀ keys : List κ,
      sumCounts (keys.flatMap f) = (keys.map (fun k => sumCounts (f k))).sum
  | [] => rfl
  | k :: ks => by
    simp [List.flatMap_cons, sumCounts_append, sum_counts_flatMap f ks]

lemma sumCounts_perm {l₁ l₂ : List ARow} (h : l₁.Perm l₂) :
    sumCounts l₁ = sumCounts l₂ := by
  simpa [sumCounts] using (h.map (fun r => r.count)).sum_eq

lemma groupedRows_perm (df : List CdsOutRow) (offsets : Int → Option Int) :
    (groupedRows df offsets).Perm (allShift df offsets) := by
  unfold groupedRows allShift uniqueLengths
  rw [← List.map_flatMap]
  exact List.Perm.map _ (dedup_flatMap_filter_perm (fun r => r.length)
    (fun r L => r.length == L) (fun a k => beq_iff_eq) df)

lemma asiteGroups_eq (df : List CdsOutRow) (offsets : Int → Option Int) :
    ∀ ls : List Int, (∀ L ∈ ls, (offsets L).isSome = true) →
      asiteGroups df offsets ls = some (ls.flatMap (fun L =>
        (df.filter (fun r => r.length == L)).map (shiftRow offsets)))
  | [], _ => rfl
  | L :: rest, h => by
    obtain ⟨o, ho⟩ := Option.isSome_iff_exists.mp (h L (List.mem_cons_self L rest))
    have ht := asiteGroups_eq df offsets rest
      (fun x hx => h x (List.mem_cons_of_mem L hx))
    have hgrp : shiftGroup df L o =
        (df.filter (fun r => r.length == L)).map (shiftRow offsets) := by
      unfold shiftGroup
      refine List.map_congr_left ?_
      intro r hr
      have hrl : r.length = L := by simpa using (List.mem_filter.mp hr).2
      simp [shiftRow, hrl, ho]
    simp [asiteGroups, ho, ht, hgrp, List.flatMap_cons]

lemma uniqueLengths_ne_nil (df : List CdsOutRow) (h : df ≠ []) :
    uniqueLengths df ≠ [] := by
  unfold uniqueLengths
  simpa [List.dedup_eq_nil] using h

lemma asitecalc_eq (df : List CdsOutRow) (offsets : Int → Option Int)
    (hne : df ≠ []) (hoff : ∀ r ∈ df, (offsets r.length).isSome = true) :
    asitecalc df offsets = some (List.insertionSort bedLe
      ((groupKeys (groupedRows df offsets)).map (bedOfKey (groupedRows df offsets)))) := by
  have h1 : ∀ L ∈ uniqueLengths df, (offsets L).isSome = true := by
    intro L hL
    obtain ⟨r, hr, hrl⟩ := List.mem_map.mp (List.mem_dedup.mp hL)
    exact hrl ▸ hoff r hr
  unfold asitecalc
  rw [if_neg (uniqueLengths_ne_nil df hne), asiteGroups_eq df offsets _ h1]
  rfl

lemma map_bedKey_grouped (rows : List ARow) :
    ((groupKeys rows).map (bedOfKey rows)).map bedKey = groupKeys rows := by
  rw [List.map_map]
  have h : ∀ k ∈ groupKeys rows, (bedKey ∘ bedOfKey rows) k = id k := fun k _ => rfl
  rw [List.map_congr_left h, List.map_id]

lemma bamrelativetocds_eq (bamdf : List TranRow) (cdsdf : List CdsRow) :
    bamrelativetocds bamdf cdsdf = some ((restrictBam bamdf cdsdf).map (fun r =>
      mkCdsOut r (calculate_differences r.tran_start_bam
        ((startDict (restrictCds cdsdf bamdf) r.tran_id).getD 0))))
    ∧ (∀ b ∈ restrictBam bamdf cdsdf,
        (startDict (restrictCds cdsdf bamdf) b.tran_id).isSome = true) := by
  have hsome : ∀ b ∈ restrictBam bamdf cdsdf,
      (startDict (restrictCds cdsdf bamdf) b.tran_id).isSome = true := by
    intro b hb
    obtain ⟨hbmem, hcond⟩ := List.mem_filter.mp hb
    have hmem : b.tran_id ∈ (cdsdf.map (fun c => c.tran_id)).dedup := by
      simpa using hcond
    obtain ⟨c, hc, hcid⟩ := List.mem_map.mp (List.mem_dedup.mp hmem)
    have hcr : c ∈ restrictCds cdsdf bamdf := by
      refine List.mem_filter.mpr ⟨hc, ?_⟩
      have : c.tran_id ∈ (bamdf.map (fun x => x.tran_id)).dedup :=
        List.mem_dedup.mpr (List.mem_map.mpr ⟨b, hbmem, hcid.symm⟩)
      simpa using this
    have hf : (List.find? (fun x => x.tran_id == b.tran_id)
        (restrictCds cdsdf bamdf).reverse).isSome = true :=
      List.find?_isSome.mpr ⟨c, List.mem_reverse.mpr hcr, by simp [hcid]⟩
    obtain ⟨x, hx⟩ := Option.isSome_iff_exists.mp hf
    simp [startDict, hx]
  refine ⟨?_, hsome⟩
  apply mapOpt_eq_some_map
  intro b hb
  obtain ⟨v, hv⟩ := Option.isSome_iff_exists.mp (hsome b hb)
  simp [hv]

set_option maxRecDepth 100000

/-- Claim C1: the spec says the engine returns, per length, the candidate
`i` in `[-30, 10]` maximising the windowed shift (Scenario B: an offset
near 0, not 10 and not 15).  The code's dedented block evaluates the shift
only at the final candidate `i = 10`, so on the Scenario B histogram it
falls back to 15, while the specified scan returns `-1`. -/
theorem change_point_ignores_scan_range :
    change_point_analysis scenB = [(30, 15)] ∧ specOffset scenB 30 = -1 := by
  constructor
  · decide
  · decide

/-- Claim C2: the spec says the offset of a length depends only on that
length's histogram.  In the code `max_shift`/`max_shift_position` persist
across the length loop: the two inputs below agree on every length-30 row,
yet length 30 receives offset 15 in one run and offset 10 in the other. -/
theorem change_point_cross_length_dependence :
    dfFlatOnly.filter (fun r => r.length == 30) =
      dfStepThenFlat.filter (fun r => r.length == 30)
    ∧ change_point_analysis dfFlatOnly = [(30, 15)]
    ∧ change_point_analysis dfStepThenFlat = [(28, 10), (30, 10)] := by
  refine ⟨by decide, by decide, by decide⟩

/-- Claim C3: the spec says a length with no positive maximal shift falls
back to offset 15 regardless of other lengths.  In `dfStepThenFlat` the
length-30 histogram yields shift 0 at every candidate of the scan range,
yet the code assigns it the offset 10 inherited from length 28. -/
theorem change_point_fallback_overridden :
    scanRange.all (fun i => specShiftAt4 dfStepThenFlat 30 i == 0) = true
    ∧ change_point_analysis dfStepThenFlat = [(28, 10), (30, 10)] := by
  refine ⟨by decide, by decide⟩

/-- Claim C4, counterexample: `boundaryRead.start` falls within
`[0, windowSize)`, yet the window filter of `bamtranscript` rejects it
because its stop lies beyond the window end — membership is not determined
by the start alone. -/
theorem window_assignment_ignores_stop_cex :
    (0 ≤ boundaryRead.start ∧ boundaryRead.start < 0 + windowSize)
    ∧ bamWindowFilter 0 [boundaryRead] = [] := by
  refine ⟨by decide, by decide⟩

/-- Claim C4, amended: a read or exon row is assigned to the window
starting at `w` iff `w ≤ start` and also `stop ≤ w + windowSize`: the stop
does constrain membership. -/
theorem window_assignment_requires_stop (w : Int) (bs : List BamRow)
    (es : List ExonRow) (b : BamRow) (e : ExonRow) :
    (b ∈ bamWindowFilter w bs ↔ b ∈ bs ∧ w ≤ b.start ∧ b.stop ≤ w + windowSize)
    ∧ (e ∈ exonWindowFilter w es ↔ e ∈ es ∧ w ≤ e.start ∧ e.stop ≤ w + windowSize) := by
  constructor
  · unfold bamWindowFilter
    simp [List.mem_filter, and_assoc]
  · unfold exonWindowFilter
    simp [List.mem_filter, and_assoc]

/-- Claim C5: within a window, a (read, exon) pair sharing the chromosome
is retained iff `read.start ≥ exon.start ∧ read.stop ≤ exon.stop`, and the
retained pair is projected by `tran_start_bam = tran_start + (start -
start_right)` and `tran_stop_bam = tran_stop - (stop_right - stop)`;
Scenario A yields `tran_start_bam = 10` and `bamcds_start = 5`. -/
theorem get_bam_tran_containment_projection :
    (∀ (bams : List BamRow) (exons : List ExonRow) (r : TranRow),
      r ∈ get_bam_tran bams exons ↔
        ∃ b ∈ bams, ∃ e ∈ exons, e.chr = b.chr ∧ e.start ≤ b.start ∧
          b.stop ≤ e.stop ∧ r = mkTranRow b e)
    ∧ (∀ (b : BamRow) (e : ExonRow),
        (mkTranRow b e).tran_start_bam = e.tran_start + (b.start - e.start) ∧
        (mkTranRow b e).tran_stop_bam = e.tran_stop - (e.stop - b.stop))
    ∧ get_bam_tran [scenRead] [scenExon] = [projA]
    ∧ projA.tran_start_bam = 10
    ∧ bamrelativetocds [projA] [scenCds] = some [mkCdsOut projA 5]
    ∧ (mkCdsOut projA 5).bamcds_start = 5 := by
  refine ⟨?_, fun b e => ⟨rfl, rfl⟩, by decide, by decide, by decide, by decide⟩
  intro bams exons r
  unfold get_bam_tran
  constructor
  · intro hr
    obtain ⟨p, hp, rfl⟩ := List.mem_map.mp hr
    obtain ⟨hp1, hp2⟩ := List.mem_filter.mp hp
    obtain ⟨b, hb, hpe⟩ := List.mem_flatMap.mp hp1
    obtain ⟨e, he, heq⟩ := List.mem_map.mp hpe
    obtain ⟨heF, hchr⟩ := List.mem_filter.mp he
    subst heq
    refine ⟨b, hb, e, heF, by simpa using hchr, ?_, ?_, rfl⟩
    · exact (of_decide_eq_true hp2).1
    · exact (of_decide_eq_true hp2).2
  · rintro ⟨b, hb, e, he, hchr, h1, h2, rfl⟩
    apply List.mem_map.mpr
    refine ⟨(b, e), ?_, rfl⟩
    apply List.mem_filter.mpr
    refine ⟨?_, decide_eq_true ⟨h1, h2⟩⟩
    apply List.mem_flatMap.mpr
    exact ⟨b, hb, List.mem_map.mpr ⟨e, List.mem_filter.mpr ⟨he, by simpa using hchr⟩, rfl⟩⟩

/-- Claim C7: after the mutual restriction to shared transcript ids, every
remaining read's `tran_id` is a key of `start_dict`, so the lookup cannot
fail and every row gets `bamcds_start = tran_start_bam - start_dict[tran_id]`. -/
theorem bamrelativetocds_no_lookup_failure (bamdf : List TranRow)
    (cdsdf : List CdsRow) :
    (∀ b ∈ restrictBam bamdf cdsdf,
      (startDict (restrictCds cdsdf bamdf) b.tran_id).isSome = true)
    ∧ bamrelativetocds bamdf cdsdf = some ((restrictBam bamdf cdsdf).map (fun r =>
        mkCdsOut r (calculate_differences r.tran_start_bam
          ((startDict (restrictCds cdsdf bamdf) r.tran_id).getD 0)))) :=
  ⟨(bamrelativetocds_eq bamdf cdsdf).2, (bamrelativetocds_eq bamdf cdsdf).1⟩

/-- Witness for C7 at the Scenario A tables. -/
theorem bamrelativetocds_no_lookup_failure_witness :
    (∀ b ∈ restrictBam [projA] [scenCds],
      (startDict (restrictCds [scenCds] [projA]) b.tran_id).isSome = true)
    ∧ bamrelativetocds [projA] [scenCds] = some ((restrictBam [projA] [scenCds]).map
        (fun r => mkCdsOut r (calculate_differences r.tran_start_bam
          ((startDict (restrictCds [scenCds] [projA]) r.tran_id).getD 0)))) :=
  bamrelativetocds_no_lookup_failure [projA] [scenCds]

/-- Claim C9, counterexample: on the Scenario A tables the output row of
`bamrelativetocds` still carries the transcript id and the genomic
start/stop, contradicting the claim that only `cds_relative_start`,
`length`, `count` and `chromosome` are retained. -/
theorem bamrelativetocds_retains_extra_fields_cex :
    bamrelativetocds [projA] [scenCds] = some [mkCdsOut projA 5]
    ∧ (mkCdsOut projA 5).tran_id = "tranA"
    ∧ (mkCdsOut projA 5).start = 100
    ∧ (mkCdsOut projA 5).stop = 130 := by
  refine ⟨by decide, by decide, by decide, by decide⟩

/-- Claim C9, amended: the translator drops exactly `tran_start_bam` and
`tran_stop_bam`; every output row keeps `count`, `chr`, `start`, `stop`,
`length` and `tran_id` of its source row, plus the computed
`bamcds_start`. -/
theorem bamrelativetocds_retained_fields (bamdf : List TranRow)
    (cdsdf : List CdsRow) (out : List CdsOutRow)
    (h : bamrelativetocds bamdf cdsdf = some out) :
    ∀ r ∈ out, ∃ b ∈ restrictBam bamdf cdsdf,
      r.count = b.count ∧ r.chr = b.chr ∧ r.start = b.start ∧ r.stop = b.stop
      ∧ r.length = b.length ∧ r.tran_id = b.tran_id
      ∧ r.bamcds_start = calculate_differences b.tran_start_bam
          ((startDict (restrictCds cdsdf bamdf) b.tran_id).getD 0) := by
  rw [(bamrelativetocds_eq bamdf cdsdf).1] at h
  intro r hr
  rw [← Option.some.inj h] at hr
  obtain ⟨b, hb, rfl⟩ := List.mem_map.mp hr
  exact ⟨b, hb, rfl, rfl, rfl, rfl, rfl, rfl, rfl⟩

/-- Witness for the amended C9 at the Scenario A tables. -/
theorem bamrelativetocds_retained_fields_witness :
    bamrelativetocds [projA] [scenCds] = some [mkCdsOut projA 5]
    ∧ (∀ r ∈ [mkCdsOut projA 5], ∃ b ∈ restrictBam [projA] [scenCds],
        r.count = b.count ∧ r.chr = b.chr ∧ r.start = b.start ∧ r.stop = b.stop
        ∧ r.length = b.length ∧ r.tran_id = b.tran_id
        ∧ r.bamcds_start = calculate_differences b.tran_start_bam
            ((startDict (restrictCds [scenCds] [projA]) b.tran_id).getD 0)) :=
  ⟨by decide, bamrelativetocds_retained_fields [projA] [scenCds]
    [mkCdsOut projA 5] (by decide)⟩

/-- Claim C10: when no (chromosome, window) cell contains both a read and
an exon, the `results` list stays empty and `pl.from_dicts` raises, so
`bamtranscript` errors instead of returning an empty table. -/
theorem bamtranscript_empty_join_error (bam : List BamRow) (exon : List ExonRow)
    (h : ∀ c ∈ ((sharedChrBam bam exon).map (fun b => b.chr)).dedup,
      ∀ w ∈ cellWindows bam exon c,
        exonWindowFilter w (cellExon bam exon c) = []
        ∨ bamWindowFilter w (cellBam bam exon c) = []) :
    bamtranscript bam exon = none := by
  have hres : windowResults bam exon = [] := by
    unfold windowResults
    rw [List.flatMap_eq_nil_iff]
    intro c hc
    rw [List.flatMap_eq_nil_iff]
    intro w hw
    rcases h c hc w hw with he | hb
    · simp [he]
    · simp [hb]
  unfold bamtranscript
  simp [hres]

lemma allShift_key_mem (df : List CdsOutRow) (offsets : Int → Option Int)
    (c : String) (p : Int) :
    (c, p) ∈ (allShift df offsets).map aKey ↔
      ∃ r ∈ df, r.chr = c ∧ r.start + (offsets r.length).getD 0 = p := by
  unfold allShift
  rw [List.map_map]
  simp [List.mem_map, aKey, shiftRow, Prod.ext_iff]

lemma sumCounts_filter_shift (df : List CdsOutRow) (offsets : Int → Option Int)
    (c : String) (p : Int) :
    sumCounts ((groupedRows df offsets).filter (fun r => decide (aKey r = (c, p)))) =
      ((df.filter (fun r => decide (r.chr = c ∧
        r.start + (offsets r.length).getD 0 = p))).map (fun r => r.count)).sum := by
  rw [sumCounts_perm ((groupedRows_perm df offsets).filter
    (fun r => decide (aKey r = (c, p))))]
  unfold allShift
  rw [List.filter_map]
  unfold sumCounts
  rw [List.map_map]
  have hf : df.filter ((fun r => decide (aKey r = (c, p))) ∘ shiftRow offsets)
      = df.filter (fun r => decide (r.chr = c ∧
          r.start + (offsets r.length).getD 0 = p)) := by
    refine List.filter_congr ?_
    intro r _
    simp [Function.comp, aKey, shiftRow, decide_eq_decide, Prod.ext_iff]
  rw [hf]
  exact congrArg List.sum (List.map_congr_left (fun r _ => rfl))

lemma groupedRows_regroup_perm (rows : List ARow) :
    ((groupKeys rows).flatMap (fun k =>
      rows.filter (fun r => decide (aKey r = k)))).Perm rows :=
  dedup_flatMap_filter_perm aKey (fun r k => decide (aKey r = k))
    (fun _ _ => decide_eq_true_iff) rows

/-- Claim C6: the aggregator's output has exactly one record per distinct
`(chr, A-site)` pair of the shifted inputs, with `count` the sum of the
counts of the input rows mapping to that pair, `stop = A-site + 1`, and the
records sorted by chromosome (lexicographic) then position (numeric). -/
theorem asitecalc_grouping (df : List CdsOutRow) (offsets : Int → Option Int)
    (hne : df ≠ []) (hoff : ∀ r ∈ df, (offsets r.length).isSome = true) :
    ∃ out, asitecalc df offsets = some out
      ∧ (out.map bedKey).Nodup
      ∧ (∀ c p, (c, p) ∈ out.map bedKey ↔
          ∃ r ∈ df, r.chr = c ∧ r.start + (offsets r.length).getD 0 = p)
      ∧ (∀ rec ∈ out, rec.stop = rec.asite + 1
          ∧ rec.count = ((df.filter (fun r => decide (r.chr = rec.chr ∧
              r.start + (offsets r.length).getD 0 = rec.asite))).map
              (fun r => r.count)).sum)
      ∧ List.Sorted bedLe out := by
  refine ⟨_, asitecalc_eq df offsets hne hoff, ?_, ?_, ?_,
    List.sorted_insertionSort bedLe _⟩
  · have hperm := (List.perm_insertionSort bedLe
      ((groupKeys (groupedRows df offsets)).map
        (bedOfKey (groupedRows df offsets)))).map bedKey
    rw [map_bedKey_grouped] at hperm
    exact hperm.nodup_iff.mpr (List.nodup_dedup _)
  · intro c p
    have hperm := (List.perm_insertionSort bedLe
      ((groupKeys (groupedRows df offsets)).map
        (bedOfKey (groupedRows df offsets)))).map bedKey
    rw [map_bedKey_grouped] at hperm
    rw [hperm.mem_iff]
    unfold groupKeys
    rw [List.mem_dedup, ((groupedRows_perm df offsets).map aKey).mem_iff]
    exact allShift_key_mem df offsets c p
  · intro rec hrec
    have hperm := List.perm_insertionSort bedLe
      ((groupKeys (groupedRows df offsets)).map (bedOfKey (groupedRows df offsets)))
    obtain ⟨k, _, rfl⟩ := List.mem_map.mp (hperm.mem_iff.mp hrec)
    exact ⟨rfl, sumCounts_filter_shift df offsets k.1 k.2⟩

/-- Witness for C6 at the Scenario D input: the two reads with counts 3
and 4 collapse onto one record with count 7. -/
theorem asitecalc_grouping_witness :
    (dfD ≠ [] ∧ ∀ r ∈ dfD, (offD r.length).isSome = true)
    ∧ asitecalc dfD offD =
        some [{ chr := "chr1", asite := 55, stop := 56, count := 7 }]
    ∧ (∃ out, asitecalc dfD offD = some out
        ∧ (out.map bedKey).Nodup
        ∧ (∀ c p, (c, p) ∈ out.map bedKey ↔
            ∃ r ∈ dfD, r.chr = c ∧ r.start + (offD r.length).getD 0 = p)
        ∧ (∀ rec ∈ out, rec.stop = rec.asite + 1
            ∧ rec.count = ((dfD.filter (fun r => decide (r.chr = rec.chr ∧
                r.start + (offD r.length).getD 0 = rec.asite))).map
                (fun r => r.count)).sum)
        ∧ List.Sorted bedLe out) :=
  ⟨⟨by decide, by decide⟩, by decide,
    asitecalc_grouping dfD offD (by decide) (by decide)⟩

/-- Claim C8: the aggregator conserves counts: when every length of the
input has an offset (and the input is nonempty, since `pl.from_dicts`
rejects an empty group list), the summed counts of the output equal the
summed counts of the input. -/
theorem asitecalc_count_conservation (df : List CdsOutRow)
    (offsets : Int → Option Int) (hne : df ≠ [])
    (hoff : ∀ r ∈ df, (offsets r.length).isSome = true) :
    ∃ out, asitecalc df offsets = some out
      ∧ (out.map (fun r => r.count)).sum = (df.map (fun r => r.count)).sum := by
  refine ⟨_, asitecalc_eq df offsets hne hoff, ?_⟩
  rw [((List.perm_insertionSort bedLe
    ((groupKeys (groupedRows df offsets)).map
      (bedOfKey (groupedRows df offsets)))).map (fun r => r.count)).sum_eq]
  rw [List.map_map]
  have h1 : ((groupKeys (groupedRows df offsets)).map
      ((fun r => r.count) ∘ bedOfKey (groupedRows df offsets)))
      = (groupKeys (groupedRows df offsets)).map (fun k =>
          sumCounts ((groupedRows df offsets).filter
            (fun r => decide (aKey r = k)))) :=
    List.map_congr_left (fun k _ => rfl)
  rw [h1, ← sum_counts_flatMap]
  rw [sumCounts_perm (groupedRows_regroup_perm (groupedRows df offsets)),
    sumCounts_perm (groupedRows_perm df offsets)]
  unfold sumCounts allShift
  rw [List.map_map]
  exact congrArg List.sum (List.map_congr_left (fun r _ => rfl))

/-- Witness for C8 at the Scenario D input: total count 7 in, total count
7 out. -/
theorem asitecalc_count_conservation_witness :
    (dfD ≠ [] ∧ ∀ r ∈ dfD, (offD r.length).isSome = true)
    ∧ (∃ out, asitecalc dfD offD = some out
        ∧ (out.map (fun r => r.count)).sum = (dfD.map (fun r => r.count)).sum) :=
  ⟨⟨by decide, by decide⟩,
    asitecalc_count_conservation dfD offD (by decide) (by decide)⟩

/-- Witness for C10: a single read spanning the boundary of the windows
scanned for chr1 is assigned to no window, so every cell misses one side
and `bamtranscript` errors. -/
theorem bamtranscript_empty_join_error_witness :
    (∀ c ∈ ((sharedChrBam c10Bam c10Exons).map (fun b => b.chr)).dedup,
      ∀ w ∈ cellWindows c10Bam c10Exons c,
        exonWindowFilter w (cellExon c10Bam c10Exons c) = []
        ∨ bamWindowFilter w (cellBam c10Bam c10Exons c) = [])
    ∧ bamtranscript c10Bam c10Exons = none :=
  ⟨by decide, bamtranscript_empty_join_error c10Bam c10Exons (by decide)⟩

end FileProcessor
